import Mathlib

/-!
Verification of the qdrant_rag repository (qdrant_indexer.py and
qdrant_retriever.py).

The two Python modules are modelled as pure Lean functions: byte streams
are lists of naturals, the persistent processed-files store is an
explicit `TrackerFile` value, the vector store is the list of
successfully upserted batches, and Python exceptions are `Except`
errors.  External collaborators (MinIO fetch, PyPDF2 text extraction,
the embedding model, Qdrant upsert and search) are parameters of the
model; everything the repository itself computes is translated
definition by definition.
-/

/-- Model of Python `range(start, stop, step)` for a positive `step`:
the list `start, start + step, ...` of all such values below `stop`. -/
def pythonRange (start stop step : Nat) : List Nat :=
  (List.range ((stop - start + step - 1) / step)).map (fun k => start + k * step)

/-- `sliceEvery xs n` groups `xs` into the consecutive Python slices
`xs[i : i + n]` for `i in range(0, len(xs), n)`. -/
def sliceEvery (xs : List α) (n : Nat) : List (List α) :=
  (pythonRange 0 xs.length n).map (fun i => (xs.drop i).take n)

/-- `CHUNK_SIZE = 500  # Characters per chunk` (qdrant_indexer.py, line 19). -/
def CHUNK_SIZE : Nat := 500

/-- Model of `split_text_into_chunks(text, chunk_size=CHUNK_SIZE)`
(qdrant_indexer.py, lines 72-83): empty text returns `[]`; otherwise the
loop `for i in range(0, len(text), chunk_size)` appends
`text[i : i + chunk_size]`. -/
def split_text_into_chunks (text : List Char) (chunk_size : Nat := CHUNK_SIZE) :
    List (List Char) :=
  if text.isEmpty then []
  else (pythonRange 0 text.length chunk_size).map
    (fun i => (text.drop i).take chunk_size)

theorem pred_div_self_eq_zero (c : Nat) : (c - 1) / c = 0 := by
  cases c with
  | zero => rfl
  | succ k => exact Nat.div_eq_of_lt (by omega)

theorem split_text_into_chunks_eq_sliceEvery (text : List Char) (c : Nat) :
    split_text_into_chunks text c = sliceEvery text c := by
  cases text with
  | nil => simp [split_text_into_chunks, sliceEvery, pythonRange, pred_div_self_eq_zero]
  | cons a t => simp [split_text_into_chunks, sliceEvery]

theorem sliceEvery_nil (n : Nat) : sliceEvery ([] : List α) n = [] := by
  simp [sliceEvery, pythonRange, pred_div_self_eq_zero]

theorem sliceEvery_length (xs : List α) (n : Nat) :
    (sliceEvery xs n).length = (xs.length + n - 1) / n := by
  simp [sliceEvery, pythonRange]

theorem sliceEvery_getElem (xs : List α) (n : Nat) (i : Nat)
    (h : i < (sliceEvery xs n).length) :
    (sliceEvery xs n)[i] = (xs.drop (i * n)).take n := by
  simp [sliceEvery, pythonRange] at h ⊢

/-- Peeling the first index off `range(0, L, n)` for `L ≥ 1`. -/
theorem pythonRange_zero_cons (L n : Nat) (hn : 1 ≤ n) (hL : 1 ≤ L) :
    pythonRange 0 L n = 0 :: (pythonRange 0 (L - n) n).map (· + n) := by
  have hcount : (L - 0 + n - 1) / n = (L - n - 0 + n - 1) / n + 1 := by
    rcases le_or_lt n L with hnl | hln
    · have h1 : L - 0 + n - 1 = (L - n - 0 + n - 1) + n := by omega
      rw [h1, Nat.add_div_right _ (by omega)]
    · have h1 : L - n = 0 := by omega
      have h2 : (L - n - 0 + n - 1) / n = 0 := by
        apply Nat.div_eq_of_lt; omega
      have h3 : (L - 0 + n - 1) / n = 1 := by
        apply Nat.div_eq_of_lt_le <;> omega
      omega
  unfold pythonRange
  rw [hcount, List.range_succ_eq_map]
  simp only [List.map_cons, List.map_map, Nat.zero_add, Nat.zero_mul]
  congr 1
  apply List.map_congr_left
  intro a _
  simp [Nat.succ_mul]

/-- A nonempty list of length at most `n` is a single slice. -/
theorem sliceEvery_of_short (xs : List α) (n : Nat) (h1 : 1 ≤ xs.length)
    (h2 : xs.length ≤ n) : sliceEvery xs n = [xs] := by
  have hcount : (xs.length - 0 + n - 1) / n = 1 := by
    apply Nat.div_eq_of_lt_le <;> omega
  unfold sliceEvery pythonRange
  rw [hcount]
  simp [List.range_succ, List.take_of_length_le h2]

/-- Prepending a slice of exactly `n` elements. -/
theorem sliceEvery_append_of_length_eq (ys zs : List α) (n : Nat)
    (hn : 1 ≤ n) (hy : ys.length = n) :
    sliceEvery (ys ++ zs) n = ys :: sliceEvery zs n := by
  unfold sliceEvery
  rw [List.length_append, hy]
  have hL : 1 ≤ n + zs.length := by omega
  rw [pythonRange_zero_cons (n + zs.length) n hn hL]
  have hsub : n + zs.length - n = zs.length := by omega
  rw [hsub]
  simp only [List.map_cons, List.map_map]
  congr 1
  · rw [List.drop_zero]
    rw [show n = ys.length from hy.symm, List.take_left]
  · apply List.map_congr_left
    intro a _
    simp only [Function.comp_apply]
    rw [show a + n = n + a by omega, ← List.drop_drop]
    rw [show n = ys.length from hy.symm, List.drop_left]

/-- Unfolding lemma: the first chunk is `xs.take n`, the rest chunk `xs.drop n`. -/
theorem sliceEvery_cons (xs : List α) (n : Nat) (hn : 1 ≤ n) (hne : xs ≠ []) :
    sliceEvery xs n = xs.take n :: sliceEvery (xs.drop n) n := by
  rcases le_or_lt xs.length n with hle | hlt
  · have h1 : 1 ≤ xs.length := by
      cases xs with
      | nil => exact absurd rfl hne
      | cons a t => simp
    rw [sliceEvery_of_short xs n h1 hle, List.take_of_length_le hle,
      List.drop_eq_nil_of_le hle, sliceEvery_nil]
  · have hy : (xs.take n).length = n := by
      rw [List.length_take]; omega
    have := sliceEvery_append_of_length_eq (xs.take n) (xs.drop n) n hn hy
    rw [List.take_append_drop] at this
    exact this

/-- Concatenating the slices reconstructs the original list. -/
theorem sliceEvery_flatten (xs : List α) (n : Nat) (hn : 1 ≤ n) :
    (sliceEvery xs n).flatten = xs := by
  have main : ∀ (fuel : Nat) (ys : List α), ys.length ≤ fuel →
      (sliceEvery ys n).flatten = ys := by
    intro fuel
    induction fuel with
    | zero =>
      intro ys hys
      have : ys = [] := List.eq_nil_of_length_eq_zero (by omega)
      subst this
      rw [sliceEvery_nil]; rfl
    | succ m ih =>
      intro ys hys
      cases ys with
      | nil => rw [sliceEvery_nil]; rfl
      | cons a t =>
        rw [sliceEvery_cons (a :: t) n hn (by simp)]
        rw [List.flatten_cons, ih ((a :: t).drop n)
          (by simp only [List.length_drop, List.length_cons] at hys ⊢; omega)]
        exact List.take_append_drop n (a :: t)
  exact main xs.length xs (Nat.le_refl _)

/-- Every slice has length at most `n`. -/
theorem sliceEvery_mem_length_le (xs : List α) (n : Nat) (b : List α)
    (hb : b ∈ sliceEvery xs n) : b.length ≤ n := by
  unfold sliceEvery at hb
  rcases List.mem_map.mp hb with ⟨i, _, hbi⟩
  rw [← hbi, List.length_take]
  exact Nat.min_le_left _ _

/-- All slices except possibly the last have length exactly `n`. -/
theorem sliceEvery_full_length (xs : List α) (n : Nat) (hn : 1 ≤ n) (i : Nat)
    (h : i < (sliceEvery xs n).length) (hlast : i + 1 < (sliceEvery xs n).length) :
    ((sliceEvery xs n)[i]).length = n := by
  rw [sliceEvery_getElem]
  rw [sliceEvery_length] at hlast
  have h2 : i + 2 ≤ (xs.length + n - 1) / n := by omega
  have h3 : (i + 2) * n ≤ xs.length + n - 1 :=
    (Nat.le_div_iff_mul_le (by omega)).mp h2
  have h4 : (i + 2) * n = i * n + 2 * n := by ring
  rw [List.length_take, List.length_drop]
  omega

/-- C2: For every text `T` of length `L` and chunk size `C ≥ 1`,
`split_text_into_chunks` returns exactly `⌈L/C⌉ = (L + C - 1) / C` chunks,
chunk `i` is the slice of `T` at character offsets `[i*C, (i+1)*C)`, every
chunk has length at most `C` and every chunk except possibly the last has
length exactly `C`, the concatenation of the chunks in index order
reconstructs `T`, and empty input yields the empty sequence. -/
theorem split_text_into_chunks_spec (T : List Char) (C : Nat) (hC : 1 ≤ C) :
    (split_text_into_chunks T C).length = (T.length + C - 1) / C ∧
    (∀ i, ∀ h : i < (split_text_into_chunks T C).length,
      (split_text_into_chunks T C)[i] = (T.drop (i * C)).take C) ∧
    (∀ i, ∀ h : i < (split_text_into_chunks T C).length,
      i + 1 < (split_text_into_chunks T C).length →
      ((split_text_into_chunks T C)[i]).length = C) ∧
    (∀ i, ∀ h : i < (split_text_into_chunks T C).length,
      ((split_text_into_chunks T C)[i]).length ≤ C) ∧
    (split_text_into_chunks T C).flatten = T ∧
    split_text_into_chunks ([] : List Char) C = [] := by
  rw [split_text_into_chunks_eq_sliceEvery]
  refine ⟨sliceEvery_length T C, ?_, ?_, ?_, sliceEvery_flatten T C hC, ?_⟩
  · intro i h
    exact sliceEvery_getElem T C i h
  · intro i h hlast
    exact sliceEvery_full_length T C hC i h hlast
  · intro i h
    exact sliceEvery_mem_length_le T C _ (List.getElem_mem h)
  · rw [split_text_into_chunks_eq_sliceEvery]
    exact sliceEvery_nil C

theorem split_text_into_chunks_spec_witness :
    (split_text_into_chunks ['a', 'b', 'c'] 2).length = (3 + 2 - 1) / 2 ∧
    (∀ i, ∀ h : i < (split_text_into_chunks ['a', 'b', 'c'] 2).length,
      (split_text_into_chunks ['a', 'b', 'c'] 2)[i] =
        ((['a', 'b', 'c'] : List Char).drop (i * 2)).take 2) ∧
    (∀ i, ∀ h : i < (split_text_into_chunks ['a', 'b', 'c'] 2).length,
      i + 1 < (split_text_into_chunks ['a', 'b', 'c'] 2).length →
      ((split_text_into_chunks ['a', 'b', 'c'] 2)[i]).length = 2) ∧
    (∀ i, ∀ h : i < (split_text_into_chunks ['a', 'b', 'c'] 2).length,
      ((split_text_into_chunks ['a', 'b', 'c'] 2)[i]).length ≤ 2) ∧
    (split_text_into_chunks ['a', 'b', 'c'] 2).flatten = ['a', 'b', 'c'] ∧
    split_text_into_chunks ([] : List Char) 2 = [] := by
  exact split_text_into_chunks_spec ['a', 'b', 'c'] 2 (by decide)

/-! ## MD5 (`hashlib.md5`)

`hashlib.md5` is the Python standard library's MD5; the repository uses
it both for file content hashes (`get_file_hash`) and for the
deterministic chunk identifier.  It is implemented here over byte lists
(naturals below 256), with 32-bit words as naturals reduced mod `2^32`.
-/

/-- Truncation to a 32-bit word. -/
def w32 (x : Nat) : Nat := x % 4294967296

/-- 32-bit left rotation. -/
def rotl32 (x s : Nat) : Nat := w32 (x * 2 ^ s) ||| x / 2 ^ (32 - s)

/-- The 64 MD5 sine-table constants `K[i] = floor(2^32 * |sin(i+1)|)`. -/
def md5K : List Nat :=
  [0xd76aa478, 0xe8c7b756, 0x242070db, 0xc1bdceee,
   0xf57c0faf, 0x4787c62a, 0xa8304613, 0xfd469501,
   0x698098d8, 0x8b44f7af, 0xffff5bb1, 0x895cd7be,
   0x6b901122, 0xfd987193, 0xa679438e, 0x49b40821,
   0xf61e2562, 0xc040b340, 0x265e5a51, 0xe9b6c7aa,
   0xd62f105d, 0x02441453, 0xd8a1e681, 0xe7d3fbc8,
   0x21e1cde6, 0xc33707d6, 0xf4d50d87, 0x455a14ed,
   0xa9e3e905, 0xfcefa3f8, 0x676f02d9, 0x8d2a4c8a,
   0xfffa3942, 0x8771f681, 0x6d9d6122, 0xfde5380c,
   0xa4beea44, 0x4bdecfa9, 0xf6bb4b60, 0xbebfbc70,
   0x289b7ec6, 0xeaa127fa, 0xd4ef3085, 0x04881d05,
   0xd9d4d039, 0xe6db99e5, 0x1fa27cf8, 0xc4ac5665,
   0xf4292244, 0x432aff97, 0xab9423a7, 0xfc93a039,
   0x655b59c3, 0x8f0ccc92, 0xffeff47d, 0x85845dd1,
   0x6fa87e4f, 0xfe2ce6e0, 0xa3014314, 0x4e0811a1,
   0xf7537e82, 0xbd3af235, 0x2ad7d2bb, 0xeb86d391]

/-- The 64 MD5 per-round left-rotation amounts. -/
def md5S : List Nat :=
  [7, 12, 17, 22, 7, 12, 17, 22, 7, 12, 17, 22, 7, 12, 17, 22,
   5, 9, 14, 20, 5, 9, 14, 20, 5, 9, 14, 20, 5, 9, 14, 20,
   4, 11, 16, 23, 4, 11, 16, 23, 4, 11, 16, 23, 4, 11, 16, 23,
   6, 10, 15, 21, 6, 10, 15, 21, 6, 10, 15, 21, 6, 10, 15, 21]

/-- The MD5 round function for round `i`. -/
def md5F (i b c d : Nat) : Nat :=
  if i < 16 then (b &&& c) ||| ((b ^^^ 0xffffffff) &&& d)
  else if i < 32 then (d &&& b) ||| ((d ^^^ 0xffffffff) &&& c)
  else if i < 48 then b ^^^ c ^^^ d
  else c ^^^ (b ||| (d ^^^ 0xffffffff))

/-- The MD5 message-word index for round `i`. -/
def md5G (i : Nat) : Nat :=
  if i < 16 then i
  else if i < 32 then (5 * i + 1) % 16
  else if i < 48 then (3 * i + 5) % 16
  else (7 * i) % 16

/-- One MD5 round on the state `(a, b, c, d)` with message words `M`. -/
def md5Round (M : List Nat) (st : Nat × Nat × Nat × Nat) (i : Nat) :
    Nat × Nat × Nat × Nat :=
  let (a, b, c, d) := st
  let f := w32 (md5F i b c d + a + md5K.getD i 0 + M.getD (md5G i) 0)
  (d, w32 (b + rotl32 f (md5S.getD i 0)), b, c)

/-- One 512-bit MD5 block update. -/
def md5Block (st : Nat × Nat × Nat × Nat) (M : List Nat) :
    Nat × Nat × Nat × Nat :=
  let (a, b, c, d) := (List.range 64).foldl (md5Round M) st
  (w32 (st.1 + a), w32 (st.2.1 + b), w32 (st.2.2.1 + c), w32 (st.2.2.2 + d))

/-- `count` little-endian bytes of `n`. -/
def leBytes (n count : Nat) : List Nat :=
  (List.range count).map (fun i => n / 2 ^ (8 * i) % 256)

/-- MD5 padding: a `0x80` byte, zeros to 56 mod 64, then the 64-bit
little-endian bit length. -/
def md5Pad (msg : List Nat) : List Nat :=
  msg ++ [0x80] ++ List.replicate ((119 - msg.length % 64) % 64) 0 ++
    leBytes (8 * msg.length) 8

/-- A 64-byte block as 16 little-endian 32-bit words. -/
def blockWords (block : List Nat) : List Nat :=
  (sliceEvery block 4).map
    (fun bs => bs.getD 0 0 + 256 * bs.getD 1 0 + 65536 * bs.getD 2 0 +
      16777216 * bs.getD 3 0)

/-- The 16 MD5 digest bytes of a byte list. -/
def md5Digest (msg : List Nat) : List Nat :=
  let st := (sliceEvery (md5Pad msg) 64).foldl
    (fun st block => md5Block st (blockWords block))
    (0x67452301, 0xefcdab89, 0x98badcfe, 0x10325476)
  leBytes st.1 4 ++ leBytes st.2.1 4 ++ leBytes st.2.2.1 4 ++ leBytes st.2.2.2 4

/-- Lowercase hexadecimal digit. -/
def hexDigitChar (n : Nat) : Char :=
  if n < 10 then Char.ofNat (48 + n) else Char.ofNat (87 + n)

/-- Two lowercase hex characters of one byte. -/
def byteToHex (b : Nat) : List Char := [hexDigitChar (b / 16), hexDigitChar (b % 16)]

/-- `hashlib.md5(msg).hexdigest()`: the 32-character lowercase hex digest. -/
def md5_hexdigest (msg : List Nat) : String :=
  (((md5Digest msg).map byteToHex).flatten).asString


/-- UTF-8 encoding of one character (Python `str.encode()`). -/
def utf8EncodeChar (c : Char) : List Nat :=
  let n := c.toNat
  if n < 0x80 then [n]
  else if n < 0x800 then [0xc0 + n / 64, 0x80 + n % 64]
  else if n < 0x10000 then
    [0xe0 + n / 4096, 0x80 + n / 64 % 64, 0x80 + n % 64]
  else
    [0xf0 + n / 262144, 0x80 + n / 4096 % 64, 0x80 + n / 64 % 64, 0x80 + n % 64]

/-- UTF-8 encoding of a string as a byte list. -/
def utf8Encode (s : String) : List Nat := (s.toList.map utf8EncodeChar).flatten

/-- Model of `get_file_hash` (qdrant_indexer.py, lines 36-41):
`hashlib.md5(file_stream.read()).hexdigest()` over the file's bytes. -/
def get_file_hash (file_bytes : List Nat) : String := md5_hexdigest file_bytes

/-- Numeric value of a lowercase hexadecimal character. -/
def hexCharVal (c : Char) : Nat :=
  if c.toNat ≤ 57 then c.toNat - 48 else c.toNat - 87

/-- Python `int(s, 16)` for a lowercase hex string. -/
def int_of_hex (s : String) : Nat :=
  s.foldl (fun acc c => acc * 16 + hexCharVal c) 0

/-- Python `s[:n]`. -/
def strTake (s : String) (n : Nat) : String := (s.toList.take n).asString

/-- Model of the chunk identifier (qdrant_indexer.py, line 181):
`int(hashlib.md5(f"{file_name}-{i}".encode()).hexdigest()[:16], 16)`. -/
def chunk_id (file_name : String) (i : Nat) : Nat :=
  int_of_hex (strTake (md5_hexdigest (utf8Encode (file_name ++ "-" ++ toString i))) 16)

/-- C6: The record identifier is a deterministic pure function of the
pair (document identifier, chunk index): equal pairs yield equal
identifiers — in the same run or across runs, since `chunk_id` is a
closed function of its two arguments — and the identifier is computed as
the truncated (first 16 hex characters) MD5 digest of the canonical
string `f"{file_name}-{i}"`. -/
theorem chunk_id_deterministic (fn₁ fn₂ : String) (i₁ i₂ : Nat)
    (hfn : fn₁ = fn₂) (hi : i₁ = i₂) :
    chunk_id fn₁ i₁ = chunk_id fn₂ i₂ ∧
    chunk_id fn₁ i₁ =
      int_of_hex (strTake (md5_hexdigest (utf8Encode (fn₁ ++ "-" ++ toString i₁))) 16) := by
  subst hfn
  subst hi
  exact ⟨rfl, rfl⟩

theorem chunk_id_deterministic_witness :
    chunk_id "report.pdf" 2 = chunk_id "report.pdf" 2 ∧
    chunk_id "report.pdf" 2 =
      int_of_hex (strTake (md5_hexdigest (utf8Encode ("report.pdf" ++ "-" ++ toString 2))) 16) :=
  chunk_id_deterministic "report.pdf" "report.pdf" 2 2 rfl rfl

/-! ## Indexing pipeline model (qdrant_indexer.py)

`index_document` is modelled as a pure state transition.  The state
carries the Change Tracker's persistent file and the Vector Store as the
list of successfully committed upsert batches.  Python exceptions caught
by the handler at lines 211-214 become the `failed` outcome with the
state as left by the committed upserts.
-/

/-- Raw bytes of a stored object. -/
abbrev Bytes := List Nat

/-- Python exception kinds relevant to the two modules. -/
inductive PyErr where
  | keyError
  | attributeError
  | typeError
  | jsonDecodeError
  | minioError
  | pdfError
  deriving DecidableEq

/-- One value of the processed-files mapping: `{"hash": ..., "last_indexed": ...}`. -/
structure TrackerEntry where
  hash : String
  last_indexed : Nat
  deriving DecidableEq

/-- The persistent state of `processed_files.json`: absent, unparseable,
or a parsed mapping. -/
inductive TrackerFile where
  | missing
  | corrupt
  | valid (entries : List (String × TrackerEntry))
  deriving DecidableEq

/-- Model of `load_processed_files` (qdrant_indexer.py, lines 43-48): a
missing file yields the empty mapping; an existing but unparseable file
makes `json.load` raise. -/
def load_processed_files : TrackerFile → Except PyErr (List (String × TrackerEntry))
  | .missing => .ok []
  | .corrupt => .error .jsonDecodeError
  | .valid entries => .ok entries

/-- Model of `save_processed_files` (qdrant_indexer.py, lines 50-53). -/
def save_processed_files (entries : List (String × TrackerEntry)) : TrackerFile :=
  .valid entries

/-- Python `d[k] = v` on a string-keyed dict modelled as an association list. -/
def dictInsert (m : List (String × α)) (k : String) (v : α) : List (String × α) :=
  if (m.lookup k).isSome then
    m.map (fun p => if p.1 == k then (k, v) else p)
  else m ++ [(k, v)]

/-- The skip test of qdrant_indexer.py, line 144:
`not FORCE_REINDEX and file_name in processed_files and
processed_files[file_name]["hash"] == file_hash`. -/
def skipDecision (force_reindex : Bool) (processed_files : List (String × TrackerEntry))
    (file_name : String) (file_hash : String) : Bool :=
  !force_reindex &&
    match processed_files.lookup file_name with
    | some entry => entry.hash == file_hash
    | none => false

/-- The spec's `shouldProcess(documentId, contentHash)`: the negation of
the skip test actually run at line 144. -/
def shouldProcess (force_reindex : Bool) (processed_files : List (String × TrackerEntry))
    (documentId : String) (contentHash : String) : Bool :=
  !skipDecision force_reindex processed_files documentId contentHash

/-- `file_name.lower().endswith('.pdf')` (qdrant_indexer.py, line 150),
expressed on the character list so that it evaluates. -/
def isPdfName (file_name : String) : Bool :=
  List.isSuffixOf ".pdf".toList (file_name.toList.map Char.toLower)

/-- `BUCKET_NAME = "index"` (qdrant_indexer.py, line 17). -/
def BUCKET_NAME : String := "index"

/-- The document metadata built at qdrant_indexer.py, lines 152-157. -/
structure DocMetadata where
  file_name : String
  mime_type : String
  page_count : Nat
  source : String
  deriving DecidableEq

def mkMetadata (file_name : String) (page_count : Nat) : DocMetadata :=
  { file_name := file_name
    mime_type := "application/pdf"
    page_count := page_count
    source := "minio://" ++ BUCKET_NAME ++ "/" ++ file_name }

/-- The per-point payload built at qdrant_indexer.py, lines 184-190. -/
structure PointPayload where
  text : List Char
  metadata : DocMetadata
  chunk_index : Nat
  total_chunks : Nat
  indexed_at : Nat
  deriving DecidableEq

/-- One Qdrant `PointStruct` (qdrant_indexer.py, line 192). -/
structure PointStruct where
  id : Nat
  vector : List Int
  payload : PointPayload
  deriving DecidableEq

/-- External collaborators of the indexer: the embedding model, the PDF
text extractor, the Qdrant upsert outcome schedule, and the clock. -/
structure Ctx where
  encode : List Char → List Int
  extract : Bytes → Except PyErr (List Char × Nat)
  upsertOk : Nat → Bool
  now : Nat

/-- Pipeline state: the committed upsert batches (in call order) and the
processed-files store. -/
structure PipelineState where
  upserted : List (List PointStruct)
  trackerFile : TrackerFile
  deriving DecidableEq

/-- Terminal outcome of `index_document` for one document. -/
inductive Outcome where
  | skipped
  | indexed
  | failed
  deriving DecidableEq

/-- The point built for chunk `i` (qdrant_indexer.py, lines 178-192). -/
def build_point (ctx : Ctx) (file_name : String) (metadata : DocMetadata)
    (total : Nat) (i : Nat) (chunk : List Char) : PointStruct :=
  { id := chunk_id file_name i
    vector := ctx.encode chunk
    payload :=
      { text := chunk
        metadata := metadata
        chunk_index := i
        total_chunks := total
        indexed_at := ctx.now } }

/-- The chunk loop of qdrant_indexer.py, lines 173-203: points are
accumulated and flushed to `qdrant_client.upsert` whenever the buffer
reaches 100, with a final flush of any remainder.  A failing upsert
raises, leaving the batches committed so far; the result carries the
committed batches (`Except.error` on a raised upsert). -/
def chunk_upload_loop (ctx : Ctx) (file_name : String) (metadata : DocMetadata)
    (total : Nat) :
    List (Nat × List Char) → List PointStruct → List (List PointStruct) → Nat →
    Except (List (List PointStruct)) (List (List PointStruct))
  | [], buf, store, k =>
    if buf.isEmpty then .ok store
    else if ctx.upsertOk k then .ok (store ++ [buf]) else .error store
  | (i, chunk) :: rest, buf, store, k =>
    let buf₂ := buf ++ [build_point ctx file_name metadata total i chunk]
    if 100 ≤ buf₂.length then
      if ctx.upsertOk k then
        chunk_upload_loop ctx file_name metadata total rest [] (store ++ [buf₂]) (k + 1)
      else .error store
    else chunk_upload_loop ctx file_name metadata total rest buf₂ store k

/-- Batch-level view of the upload loop: upsert the given batches in
order until one fails. -/
def upsert_batches (ctx : Ctx) :
    List (List PointStruct) → List (List PointStruct) → Nat →
    Except (List (List PointStruct)) (List (List PointStruct))
  | [], store, _ => .ok store
  | b :: bs, store, k =>
    if ctx.upsertOk k then upsert_batches ctx bs (store ++ [b]) (k + 1)
    else .error store

/-- All points of one document in chunk-index order. -/
def doc_points (ctx : Ctx) (file_name : String) (page_count : Nat)
    (text : List Char) : List PointStruct :=
  let chunks := split_text_into_chunks text CHUNK_SIZE
  chunks.enum.map (fun p => build_point ctx file_name (mkMetadata file_name page_count)
    chunks.length p.1 p.2)

/-- Model of `index_document` (qdrant_indexer.py, lines 129-214) as a
state transition: fetch from MinIO (a parameter), hash, consult the
processed-files store, skip unchanged or non-PDF documents, extract,
chunk, embed and upsert in batches, and finally record the document as
processed.  Any raised exception is caught by the handler at lines
211-214 and yields `failed` with the state as committed so far. -/
def index_document (ctx : Ctx) (force_reindex : Bool) (file_name : String)
    (fetch : Except PyErr Bytes) (st : PipelineState) : Outcome × PipelineState :=
  match fetch with
  | .error _ => (.failed, st)
  | .ok file_bytes =>
    let file_hash := get_file_hash file_bytes
    match load_processed_files st.trackerFile with
    | .error _ => (.failed, st)
    | .ok processed_files =>
      if skipDecision force_reindex processed_files file_name file_hash then
        (.skipped, st)
      else if isPdfName file_name then
        match ctx.extract file_bytes with
        | .error _ => (.failed, st)
        | .ok (text, page_count) =>
          let metadata := mkMetadata file_name page_count
          let text_chunks := split_text_into_chunks text CHUNK_SIZE
          if text_chunks.isEmpty then (.skipped, st)
          else
            match chunk_upload_loop ctx file_name metadata text_chunks.length
                text_chunks.enum [] st.upserted 0 with
            | .error store₂ => (.failed, { upserted := store₂, trackerFile := st.trackerFile })
            | .ok store₂ =>
              (.indexed,
                { upserted := store₂
                  trackerFile := save_processed_files (dictInsert processed_files file_name
                    { hash := file_hash, last_indexed := ctx.now }) })
      else (.skipped, st)

/-- The document loop of `index_all_documents` (qdrant_indexer.py,
lines 234-235): each object is passed to `index_document`; the loop
always continues with the next document. -/
def process_documents (ctx : Ctx) (force_reindex : Bool) :
    List (String × Except PyErr Bytes) → PipelineState → PipelineState
  | [], st => st
  | (file_name, fetch) :: rest, st =>
    process_documents ctx force_reindex rest
      (index_document ctx force_reindex file_name fetch st).2

/-- C3: The skip decision (`shouldProcess`) is false only when
incremental mode is enabled (`force_reindex` off), an entry for the
document identifier exists in the processed-files mapping, and the
entry's stored hash equals the given content hash; in every other case
the document is processed.  `shouldProcess` is the negation of the skip
test actually evaluated at qdrant_indexer.py, line 144. -/
theorem shouldProcess_false_iff (force_reindex : Bool)
    (processed_files : List (String × TrackerEntry)) (documentId contentHash : String) :
    (shouldProcess force_reindex processed_files documentId contentHash = false ↔
      force_reindex = false ∧ ∃ entry, processed_files.lookup documentId = some entry ∧
        entry.hash = contentHash) ∧
    skipDecision force_reindex processed_files documentId contentHash =
      !shouldProcess force_reindex processed_files documentId contentHash := by
  refine ⟨?_, by simp [shouldProcess]⟩
  unfold shouldProcess skipDecision
  cases force_reindex with
  | true => simp
  | false =>
    cases h : processed_files.lookup documentId with
    | none => simp [h]
    | some entry => simp [h, beq_iff_eq]

/-- One unchanged document is skipped with the state untouched. -/
theorem index_document_skips_unchanged (ctx : Ctx) (st : PipelineState)
    (m : List (String × TrackerEntry)) (file_name : String) (file_bytes : Bytes)
    (entry : TrackerEntry)
    (hload : load_processed_files st.trackerFile = .ok m)
    (hentry : m.lookup file_name = some entry)
    (hhash : entry.hash = get_file_hash file_bytes) :
    index_document ctx false file_name (.ok file_bytes) st = (.skipped, st) := by
  have hskip : skipDecision false m file_name (get_file_hash file_bytes) = true := by
    simp [skipDecision, hentry, hhash]
  simp [index_document, hload, hskip]

/-- C1: With incremental mode enabled (force-reindex off), every
document whose identifier has a processed-files entry whose stored hash
equals the document's current content hash is Skipped with the state
untouched — no Vector Store upsert, no Change Tracker write — and
re-running the document loop over a whole unchanged document set leaves
both the Vector Store contents and the Change Tracker state unchanged. -/
theorem unchanged_run_is_idempotent (ctx : Ctx) (st : PipelineState)
    (m : List (String × TrackerEntry)) (docs : List (String × Except PyErr Bytes))
    (hload : load_processed_files st.trackerFile = .ok m)
    (hdocs : ∀ p ∈ docs, ∃ (file_bytes : Bytes) (entry : TrackerEntry),
      p.2 = .ok file_bytes ∧ m.lookup p.1 = some entry ∧
        entry.hash = get_file_hash file_bytes) :
    (∀ p ∈ docs, index_document ctx false p.1 p.2 st = (.skipped, st)) ∧
    process_documents ctx false docs st = st := by
  have hone : ∀ p ∈ docs, index_document ctx false p.1 p.2 st = (.skipped, st) := by
    intro p hp
    obtain ⟨file_bytes, entry, hfetch, hentry, hhash⟩ := hdocs p hp
    rw [hfetch]
    exact index_document_skips_unchanged ctx st m p.1 file_bytes entry hload hentry hhash
  refine ⟨hone, ?_⟩
  induction docs with
  | nil => rfl
  | cons d rest ih =>
    obtain ⟨fn, fetch⟩ := d
    unfold process_documents
    rw [hone (fn, fetch) (by simp)]
    exact ih (fun p hp => hdocs p (by simp [hp])) (fun p hp => hone p (by simp [hp]))

def ctxW : Ctx :=
  { encode := fun _ => [], extract := fun _ => .ok ([], 0)
    upsertOk := fun _ => true, now := 0 }

def entryW : TrackerEntry := { hash := get_file_hash [1, 2], last_indexed := 7 }

def stW : PipelineState := { upserted := [], trackerFile := .valid [("a.pdf", entryW)] }

theorem unchanged_run_is_idempotent_witness :
    (∀ p ∈ [("a.pdf", (Except.ok [1, 2] : Except PyErr Bytes))],
      index_document ctxW false p.1 p.2 stW = (.skipped, stW)) ∧
    process_documents ctxW false [("a.pdf", .ok [1, 2])] stW = stW :=
  unchanged_run_is_idempotent ctxW stW [("a.pdf", entryW)] [("a.pdf", .ok [1, 2])] rfl
    (by
      intro p hp
      simp only [List.mem_singleton] at hp
      subst hp
      exact ⟨[1, 2], entryW, rfl, rfl, rfl⟩)

/-- C5: A document whose extracted text yields an empty chunk sequence
terminates as Skipped with the state untouched: nothing is upserted and
the processed-files entry is neither created nor updated, so the
document is retried on the next run. -/
theorem empty_chunks_skipped (ctx : Ctx) (force_reindex : Bool) (file_name : String)
    (file_bytes : Bytes) (st : PipelineState) (m : List (String × TrackerEntry))
    (text : List Char) (page_count : Nat)
    (hload : load_processed_files st.trackerFile = .ok m)
    (hext : ctx.extract file_bytes = .ok (text, page_count))
    (hchunks : split_text_into_chunks text CHUNK_SIZE = []) :
    index_document ctx force_reindex file_name (.ok file_bytes) st = (.skipped, st) := by
  simp only [index_document, hload]
  by_cases hsd : skipDecision force_reindex m file_name (get_file_hash file_bytes) = true
  · simp [hsd]
  · simp only [Bool.not_eq_true] at hsd
    by_cases hpdf : isPdfName file_name = true
    · simp [hsd, hpdf, hext, hchunks]
    · simp only [Bool.not_eq_true] at hpdf
      simp [hsd, hpdf]

def ctxW5 : Ctx :=
  { encode := fun _ => [], extract := fun _ => .ok ([], 3)
    upsertOk := fun _ => true, now := 0 }

def stW5 : PipelineState := { upserted := [], trackerFile := .valid [] }

theorem empty_chunks_skipped_witness :
    index_document ctxW5 false "a.pdf" (.ok [5]) stW5 = (.skipped, stW5) :=
  empty_chunks_skipped ctxW5 false "a.pdf" [5] stW5 [] [] 3 rfl rfl rfl

def ctxC4 : Ctx :=
  { encode := fun _ => [], extract := fun _ => .ok (['a'], 1)
    upsertOk := fun _ => true, now := 0 }

def stC4 : PipelineState := { upserted := [], trackerFile := .corrupt }

/-- C4 counterexample: a corrupt (unparseable) processed-files store is
not treated as "no prior state": `load_processed_files` raises instead
of returning the empty mapping, and a document processed under a corrupt
store terminates Failed — it is not reindexed. -/
theorem corrupt_store_not_reindexed :
    load_processed_files TrackerFile.corrupt ≠ .ok [] ∧
    index_document ctxC4 false "a.pdf" (.ok [1]) stC4 = (.failed, stC4) := by
  exact ⟨by simp [load_processed_files], rfl⟩

/-- C4 (amended): a missing store file is treated as "no prior state"
(the empty mapping), forcing full reindex; but a corrupt (unparseable)
store file raises a parse error that the per-document handler catches,
so every document of that run terminates Failed with the state untouched
— the read failure is not fatal to the run, yet the documents fail
rather than being reindexed. -/
theorem load_failure_semantics (ctx : Ctx) (force_reindex : Bool) (st : PipelineState)
    (hc : st.trackerFile = .corrupt) :
    load_processed_files TrackerFile.missing = .ok [] ∧
    (∀ file_name fetch, index_document ctx force_reindex file_name fetch st = (.failed, st)) ∧
    (∀ docs, process_documents ctx force_reindex docs st = st) := by
  refine ⟨rfl, ?_, ?_⟩
  · intro file_name fetch
    cases fetch with
    | error e => rfl
    | ok file_bytes => simp [index_document, hc, load_processed_files]
  · intro docs
    induction docs with
    | nil => rfl
    | cons d rest ih =>
      obtain ⟨fn, fetch⟩ := d
      unfold process_documents
      cases fetch with
      | error e => exact ih
      | ok file_bytes =>
        rw [show (index_document ctx force_reindex fn (.ok file_bytes) st).2 = st by
          simp [index_document, hc, load_processed_files]]
        exact ih

theorem load_failure_semantics_witness :
    load_processed_files TrackerFile.missing = .ok [] ∧
    (∀ file_name fetch, index_document ctxC4 false file_name fetch stC4 = (.failed, stC4)) ∧
    (∀ docs, process_documents ctxC4 false docs stC4 = stC4) :=
  load_failure_semantics ctxC4 false stC4 rfl

/-- Bridge: the buffered chunk loop behaves as upserting the consecutive
100-point slices of the full point list, in order. -/
theorem chunk_upload_loop_eq_batches (ctx : Ctx) (file_name : String)
    (metadata : DocMetadata) (total : Nat) (rest : List (Nat × List Char)) :
    ∀ (buf : List PointStruct) (store : List (List PointStruct)) (k : Nat),
      buf.length < 100 →
      chunk_upload_loop ctx file_name metadata total rest buf store k =
        upsert_batches ctx
          (sliceEvery
            (buf ++ rest.map (fun p => build_point ctx file_name metadata total p.1 p.2))
            100)
          store k := by
  induction rest with
  | nil =>
    intro buf store k hbuf
    by_cases hb : buf.isEmpty
    · have : buf = [] := List.isEmpty_iff.mp hb
      subst this
      simp [chunk_upload_loop, sliceEvery_nil, upsert_batches]
    · have hne : buf ≠ [] := fun h => hb (by simp [h])
      have h1 : 1 ≤ buf.length := by
        cases buf with
        | nil => exact absurd rfl hne
        | cons a t => simp
      simp only [List.map_nil, List.append_nil]
      rw [sliceEvery_of_short buf 100 h1 (by omega)]
      simp only [chunk_upload_loop, upsert_batches, hb]
      rfl
  | cons pr rest ih =>
    intro buf store k hbuf
    obtain ⟨i, chunk⟩ := pr
    simp only [chunk_upload_loop, List.map_cons]
    have hassoc :
        buf ++ build_point ctx file_name metadata total i chunk ::
            rest.map (fun p => build_point ctx file_name metadata total p.1 p.2) =
          (buf ++ [build_point ctx file_name metadata total i chunk]) ++
            rest.map (fun p => build_point ctx file_name metadata total p.1 p.2) := by
      simp
    by_cases h100 : 100 ≤ (buf ++ [build_point ctx file_name metadata total i chunk]).length
    · have hlen : (buf ++ [build_point ctx file_name metadata total i chunk]).length = 100 := by
        simp at h100 ⊢
        omega
      rw [if_pos h100, hassoc,
        sliceEvery_append_of_length_eq _ _ 100 (by omega) hlen]
      by_cases hok : ctx.upsertOk k
      · rw [if_pos hok, ih [] _ (k + 1) (by simp)]
        simp [upsert_batches, hok]
      · rw [if_neg hok]
        simp [upsert_batches, hok]
    · rw [if_neg h100, ih _ store k (by simp at h100 ⊢; omega), hassoc]

/-- Upserting batches with the first failure at call `j` commits exactly
the first `j` batches and raises. -/
theorem upsert_batches_error (ctx : Ctx) :
    ∀ (bs store : List (List PointStruct)) (k j : Nat),
      j < bs.length → (∀ l, l < j → ctx.upsertOk (k + l) = true) →
      ctx.upsertOk (k + j) = false →
      upsert_batches ctx bs store k = .error (store ++ bs.take j) := by
  intro bs
  induction bs with
  | nil =>
    intro store k j hj
    simp at hj
  | cons b bs ih =>
    intro store k j hj hok hfail
    cases j with
    | zero =>
      simp only [Nat.add_zero] at hfail
      simp [upsert_batches, hfail]
    | succ j' =>
      have h0 : ctx.upsertOk k = true := by
        have := hok 0 (by omega)
        simpa using this
      simp only [upsert_batches, h0, if_true]
      rw [ih (store ++ [b]) (k + 1) j' (by simp at hj; omega)
        (fun l hl => by
          have := hok (l + 1) (by omega)
          rwa [show k + (l + 1) = k + 1 + l by omega] at this)
        (by rwa [show k + 1 + j' = k + (j' + 1) by omega])]
      simp [List.take_succ_cons]

/-- C7: Records are upserted in consecutive batches of at most 100
points in chunk-index order; when the upsert of batch `j` fails (all
earlier ones succeeding), the document terminates Failed with exactly
the first `j` batches committed, no further batch upserted, the
processed-files entry untouched, and the document loop continues with
the next document. -/
theorem upsert_failure_aborts_document (ctx : Ctx) (force_reindex : Bool)
    (file_name : String) (file_bytes : Bytes) (st : PipelineState)
    (m : List (String × TrackerEntry)) (text : List Char) (page_count : Nat) (j : Nat)
    (hload : load_processed_files st.trackerFile = .ok m)
    (hskip : skipDecision force_reindex m file_name (get_file_hash file_bytes) = false)
    (hpdf : isPdfName file_name = true)
    (hext : ctx.extract file_bytes = .ok (text, page_count))
    (hne : split_text_into_chunks text CHUNK_SIZE ≠ [])
    (hok : ∀ l, l < j → ctx.upsertOk l = true)
    (hfail : ctx.upsertOk j = false)
    (hj : j < (sliceEvery (doc_points ctx file_name page_count text) 100).length) :
    index_document ctx force_reindex file_name (.ok file_bytes) st =
      (.failed,
        { upserted := st.upserted ++
            (sliceEvery (doc_points ctx file_name page_count text) 100).take j
          trackerFile := st.trackerFile }) ∧
    (∀ b ∈ sliceEvery (doc_points ctx file_name page_count text) 100, b.length ≤ 100) ∧
    (sliceEvery (doc_points ctx file_name page_count text) 100).flatten =
      doc_points ctx file_name page_count text ∧
    (∀ rest, process_documents ctx force_reindex ((file_name, Except.ok file_bytes) :: rest) st =
      process_documents ctx force_reindex rest
        (index_document ctx force_reindex file_name (.ok file_bytes) st).2) := by
  have hloop :
      chunk_upload_loop ctx file_name (mkMetadata file_name page_count)
          (split_text_into_chunks text CHUNK_SIZE).length
          (split_text_into_chunks text CHUNK_SIZE).enum [] st.upserted 0 =
        .error (st.upserted ++
          (sliceEvery (doc_points ctx file_name page_count text) 100).take j) := by
    rw [chunk_upload_loop_eq_batches ctx file_name (mkMetadata file_name page_count)
      (split_text_into_chunks text CHUNK_SIZE).length
      (split_text_into_chunks text CHUNK_SIZE).enum [] st.upserted 0 (by simp)]
    rw [List.nil_append]
    exact upsert_batches_error ctx _ st.upserted 0 j
      (by
        simpa [doc_points] using hj)
      (fun l hl => by simpa using hok l hl)
      (by simpa using hfail)
  refine ⟨?_, ?_, ?_, ?_⟩
  · have hisE : (split_text_into_chunks text CHUNK_SIZE).isEmpty = false := by
      cases hc : split_text_into_chunks text CHUNK_SIZE with
      | nil => exact absurd hc hne
      | cons a t => rfl
    simp only [index_document, hload, hskip, hpdf, hext, hisE, Bool.false_eq_true,
      if_false, if_true]
    simp [hloop, doc_points]
  · intro b hb
    exact sliceEvery_mem_length_le _ _ _ hb
  · exact sliceEvery_flatten _ 100 (by omega)
  · intro rest
    rfl

def ctxW7 : Ctx :=
  { encode := fun _ => [], extract := fun _ => .ok (['a'], 1)
    upsertOk := fun _ => false, now := 0 }

def stW7 : PipelineState := { upserted := [], trackerFile := .valid [] }

theorem upsert_failure_aborts_document_witness :
    index_document ctxW7 false "a.pdf" (.ok [9]) stW7 =
      (.failed,
        { upserted := stW7.upserted ++
            (sliceEvery (doc_points ctxW7 "a.pdf" 1 ['a']) 100).take 0
          trackerFile := stW7.trackerFile }) ∧
    (∀ b ∈ sliceEvery (doc_points ctxW7 "a.pdf" 1 ['a']) 100, b.length ≤ 100) ∧
    (sliceEvery (doc_points ctxW7 "a.pdf" 1 ['a']) 100).flatten =
      doc_points ctxW7 "a.pdf" 1 ['a'] ∧
    (∀ rest, process_documents ctxW7 false (("a.pdf", Except.ok [9]) :: rest) stW7 =
      process_documents ctxW7 false rest
        (index_document ctxW7 false "a.pdf" (.ok [9]) stW7).2) :=
  upsert_failure_aborts_document ctxW7 false "a.pdf" [9] stW7 [] ['a'] 1 0
    rfl rfl (by decide) rfl (by decide)
    (fun l hl => absurd hl (Nat.not_lt_zero l)) rfl (by decide)

/-! ## Retrieval service model (qdrant_retriever.py)

Hit payloads coming back from Qdrant are arbitrary JSON values; scores
are modelled as rationals (only their order matters to the repository's
code).  The per-hit mapping of `retrieve_docs` (lines 140-155) and its
`except KeyError` handler are translated directly; any other exception
escapes the loop to the request-level handlers (lines 168-173). -/

/-- A JSON value, as stored in a Qdrant payload. -/
inductive Json where
  | null
  | bool (b : Bool)
  | num (n : Int)
  | str (s : String)
  | arr (elems : List Json)
  | obj (fields : List (String × Json))

/-- Python `d.get(key, default)`: only dicts have `.get`; on any other
value the attribute access raises `AttributeError`. -/
def pyDictGetD (j : Json) (key : String) (dflt : Json) : Except PyErr Json :=
  match j with
  | .obj fields => .ok ((fields.lookup key).getD dflt)
  | _ => .error .attributeError

/-- Python `d[key]` on a JSON value: a dict raises `KeyError` when the
key is absent; subscripting a non-dict with a string raises `TypeError`. -/
def pySubscript (j : Json) (key : String) : Except PyErr Json :=
  match j with
  | .obj fields =>
    match fields.lookup key with
    | some v => .ok v
    | none => .error .keyError
  | _ => .error .typeError

/-- One search hit (`ScoredPoint`) returned by `qdrant_client.search`. -/
structure ScoredPoint where
  score : ℚ
  payload : Json

/-- The `DocumentChunk` response model (qdrant_retriever.py, lines
46-52), with payload-derived fields kept as the JSON values extracted by
the mapping code. -/
structure DocumentChunk where
  text : Json
  file_name : Json
  score : ℚ
  page_count : Json
  chunk_index : Json
  total_chunks : Json

/-- The body of the per-hit `try:` block (qdrant_retriever.py, lines
142-153): `metadata = hit.payload.get("metadata", {})`, then the
`DocumentChunk` fields in evaluation order. -/
def process_hit (hit : ScoredPoint) : Except PyErr DocumentChunk :=
  match pyDictGetD hit.payload "metadata" (Json.obj []) with
  | .error e => .error e
  | .ok metadata =>
    match pySubscript hit.payload "text" with
    | .error e => .error e
    | .ok text =>
      match pyDictGetD metadata "file_name" (Json.str "Unknown") with
      | .error e => .error e
      | .ok file_name =>
        match pyDictGetD metadata "page_count" Json.null with
        | .error e => .error e
        | .ok page_count =>
          match pyDictGetD hit.payload "chunk_index" Json.null with
          | .error e => .error e
          | .ok chunk_index =>
            match pyDictGetD hit.payload "total_chunks" Json.null with
            | .error e => .error e
            | .ok total_chunks =>
              .ok { text := text, file_name := file_name, score := hit.score
                    page_count := page_count, chunk_index := chunk_index
                    total_chunks := total_chunks }

/-- The result-processing loop (qdrant_retriever.py, lines 139-155):
each hit is mapped; `except KeyError` drops that hit and continues; any
other exception escapes the loop. -/
def collect_documents : List ScoredPoint → Except PyErr (List DocumentChunk)
  | [] => .ok []
  | hit :: rest =>
    match process_hit hit with
    | .ok d =>
      match collect_documents rest with
      | .ok ds => .ok (d :: ds)
      | .error e => .error e
    | .error .keyError => collect_documents rest
    | .error e => .error e

/-- The response model (qdrant_retriever.py, lines 54-57). -/
structure QueryResponse where
  documents : List DocumentChunk
  query : String
  took_ms : ℚ

/-- Model of the `/retrieve` handler (qdrant_retriever.py, lines
110-173) after the external `qdrant_client.search` call: assemble the
documents, or surface an escaped exception as a request-level error
(HTTP 500). -/
def retrieve_docs (query : String) (took_ms : ℚ) (search_results : List ScoredPoint) :
    Except PyErr QueryResponse :=
  match collect_documents search_results with
  | .ok documents => .ok { documents := documents, query := query, took_ms := took_ms }
  | .error e => .error e

/-- A successfully mapped hit carries the hit's score unchanged. -/
theorem process_hit_score (hit : ScoredPoint) (d : DocumentChunk)
    (hp : process_hit hit = .ok d) : d.score = hit.score := by
  unfold process_hit at hp
  cases h1 : pyDictGetD hit.payload "metadata" (Json.obj []) with
  | error e => simp only [h1] at hp; exact Except.noConfusion hp
  | ok metadata =>
    simp only [h1] at hp
    cases h2 : pySubscript hit.payload "text" with
    | error e => simp only [h2] at hp; exact Except.noConfusion hp
    | ok text =>
      simp only [h2] at hp
      cases h3 : pyDictGetD metadata "file_name" (Json.str "Unknown") with
      | error e => simp only [h3] at hp; exact Except.noConfusion hp
      | ok file_name =>
        simp only [h3] at hp
        cases h4 : pyDictGetD metadata "page_count" Json.null with
        | error e => simp only [h4] at hp; exact Except.noConfusion hp
        | ok page_count =>
          simp only [h4] at hp
          cases h5 : pyDictGetD hit.payload "chunk_index" Json.null with
          | error e => simp only [h5] at hp; exact Except.noConfusion hp
          | ok chunk_index =>
            simp only [h5] at hp
            cases h6 : pyDictGetD hit.payload "total_chunks" Json.null with
            | error e => simp only [h6] at hp; exact Except.noConfusion hp
            | ok total_chunks =>
              simp only [h6] at hp
              cases hp
              rfl

/-- The returned scores are a sublist of the hit scores, in order. -/
theorem collect_documents_scores_sublist (results : List ScoredPoint)
    (docs : List DocumentChunk) (h : collect_documents results = .ok docs) :
    List.Sublist (docs.map (fun d => d.score)) (results.map (fun r => r.score)) := by
  induction results generalizing docs with
  | nil =>
    simp only [collect_documents] at h
    cases h
    simp
  | cons hit rest ih =>
    simp only [collect_documents] at h
    cases hp : process_hit hit with
    | ok d =>
      rw [hp] at h
      cases hc : collect_documents rest with
      | ok ds =>
        rw [hc] at h
        cases h
        have hscore : d.score = hit.score := process_hit_score hit d hp
        simp only [List.map_cons, hscore]
        exact List.Sublist.cons₂ _ (ih ds hc)
      | error e =>
        rw [hc] at h
        cases h
    | error e =>
      rw [hp] at h
      cases e with
      | keyError => exact List.Sublist.cons _ (ih docs h)
      | attributeError => cases h
      | typeError => cases h
      | jsonDecodeError => cases h
      | minioError => cases h
      | pdfError => cases h

/-- C8: Provided the Vector Store honours its search contract (at most
`limit` hits, all with score at least `threshold`, ordered descending by
score — spec section 6), `retrieve_docs` returns at most `limit`
results, every returned result has score at least `threshold`, and the
results are ordered descending by score: the mapping loop only drops
hits and preserves both order and scores. -/
theorem retrieve_contract (query : String) (took_ms : ℚ) (limit : Nat) (threshold : ℚ)
    (search_results : List ScoredPoint) (resp : QueryResponse)
    (hlimit : 1 ≤ limit) (hthr₀ : 0 ≤ threshold) (hthr₁ : threshold ≤ 1)
    (hlen : search_results.length ≤ limit)
    (hscores : ∀ r ∈ search_results, threshold ≤ r.score)
    (hsorted : search_results.Pairwise (fun a b => b.score ≤ a.score))
    (hok : retrieve_docs query took_ms search_results = .ok resp) :
    resp.documents.length ≤ limit ∧
    (∀ d ∈ resp.documents, threshold ≤ d.score) ∧
    resp.documents.Pairwise (fun a b => b.score ≤ a.score) := by
  have hcol : collect_documents search_results = .ok resp.documents := by
    unfold retrieve_docs at hok
    cases hc : collect_documents search_results with
    | ok docs => simp only [hc] at hok; cases hok; rfl
    | error e => simp only [hc] at hok; exact Except.noConfusion hok
  have hsub := collect_documents_scores_sublist search_results resp.documents hcol
  refine ⟨?_, ?_, ?_⟩
  · have hl := hsub.length_le
    simp only [List.length_map] at hl
    omega
  · intro d hd
    have hmem : d.score ∈ search_results.map (fun r => r.score) :=
      hsub.subset (List.mem_map_of_mem _ hd)
    rcases List.mem_map.mp hmem with ⟨r, hr, hre⟩
    rw [← hre]
    exact hscores r hr
  · have hp : (search_results.map (fun r => r.score)).Pairwise (fun a b => b ≤ a) :=
      List.pairwise_map.mpr hsorted
    have hq := List.Pairwise.sublist hsub hp
    exact List.pairwise_map.mp hq

def hitW8 : ScoredPoint := { score := 1, payload := Json.obj [("text", Json.str "a")] }

def docW8 : DocumentChunk :=
  { text := Json.str "a", file_name := Json.str "Unknown", score := 1
    page_count := Json.null, chunk_index := Json.null, total_chunks := Json.null }

def respW8 : QueryResponse := { documents := [docW8], query := "q", took_ms := 0 }

theorem retrieve_contract_witness :
    respW8.documents.length ≤ 1 ∧
    (∀ d ∈ respW8.documents, (0 : ℚ) ≤ d.score) ∧
    respW8.documents.Pairwise (fun a b => b.score ≤ a.score) :=
  retrieve_contract "q" 0 1 0 [hitW8] respW8 (by omega) (by norm_num) (by norm_num)
    (by simp)
    (by
      intro r hr
      simp only [List.mem_singleton] at hr
      subst hr
      norm_num [hitW8])
    (List.pairwise_singleton _ _)
    rfl

def goodHitC9 : ScoredPoint :=
  { score := 1, payload := Json.obj [("text", Json.str "ok"), ("metadata", Json.obj [])] }

def badHitC9 : ScoredPoint :=
  { score := 1, payload := Json.obj [("text", Json.str "x"), ("metadata", Json.str "oops")] }

/-- C9 counterexample: a hit whose payload is malformed other than by a
missing `text` key — here `metadata` is a string, so `metadata.get(...)`
raises `AttributeError`, not `KeyError` — is not dropped: the exception
escapes the loop and the whole request fails, losing the well-formed hit
as well. -/
theorem malformed_hit_fatal :
    retrieve_docs "q" 0 [goodHitC9, badHitC9] = .error PyErr.attributeError := rfl

/-- C9 (amended): a hit whose payload is missing the required `text` key
raises `KeyError`, which the per-hit handler catches, dropping exactly
that hit while the remaining hits are still assembled; but a payload
malformed in any other way (for example a non-dict `metadata`) raises a
different exception that aborts the whole request with an HTTP 500. -/
theorem keyerror_hit_dropped (pre post : List ScoredPoint) (h : ScoredPoint)
    (hk : process_hit h = .error .keyError) :
    collect_documents (pre ++ h :: post) = collect_documents (pre ++ post) ∧
    (∀ (sc : ℚ) (fields : List (String × Json)), fields.lookup "text" = none →
      process_hit { score := sc, payload := Json.obj fields } = .error .keyError) := by
  constructor
  · induction pre with
    | nil => simp only [List.nil_append, collect_documents, hk]
    | cons p pre ih =>
      simp only [List.cons_append, collect_documents]
      cases hp : process_hit p with
      | ok d => simp only [hp, List.append_eq, ih]
      | error e =>
        cases e with
        | keyError => simpa only [hp, List.append_eq] using ih
        | attributeError => simp only [hp]
        | typeError => simp only [hp]
        | jsonDecodeError => simp only [hp]
        | minioError => simp only [hp]
        | pdfError => simp only [hp]
  · intro sc fields hnone
    unfold process_hit
    simp [pyDictGetD, pySubscript, hnone]

def noTextHitC9 : ScoredPoint := { score := 1, payload := Json.obj [] }

theorem keyerror_hit_dropped_witness :
    collect_documents ([goodHitC9] ++ noTextHitC9 :: []) =
      collect_documents ([goodHitC9] ++ []) ∧
    (∀ (sc : ℚ) (fields : List (String × Json)), fields.lookup "text" = none →
      process_hit { score := sc, payload := Json.obj fields } = .error .keyError) :=
  keyerror_hit_dropped [goodHitC9] [] noTextHitC9 rfl

/-- C10: A hit whose payload contains `text` but lacks `metadata` — or
whose `metadata` dict lacks `file_name` and `page_count` — is not
dropped: it is included in the response with `file_name` the string
"Unknown" and `page_count` null (None), while `chunk_index` and
`total_chunks` are null whenever the corresponding payload fields are
absent (`Option.getD` of the lookup with default null). -/
theorem missing_metadata_defaults (sc : ℚ) (fields : List (String × Json)) (t : Json)
    (htext : fields.lookup "text" = some t)
    (hmd : fields.lookup "metadata" = none ∨
      ∃ ms, fields.lookup "metadata" = some (Json.obj ms) ∧
        ms.lookup "file_name" = none ∧ ms.lookup "page_count" = none) :
    process_hit { score := sc, payload := Json.obj fields } =
      .ok { text := t, file_name := Json.str "Unknown", score := sc
            page_count := Json.null
            chunk_index := (fields.lookup "chunk_index").getD Json.null
            total_chunks := (fields.lookup "total_chunks").getD Json.null } ∧
    (∀ (rest : List ScoredPoint) (ds : List DocumentChunk),
      collect_documents rest = .ok ds →
      collect_documents ({ score := sc, payload := Json.obj fields } :: rest) =
        .ok ({ text := t, file_name := Json.str "Unknown", score := sc
               page_count := Json.null
               chunk_index := (fields.lookup "chunk_index").getD Json.null
               total_chunks := (fields.lookup "total_chunks").getD Json.null } :: ds)) := by
  have hph : process_hit { score := sc, payload := Json.obj fields } =
      .ok { text := t, file_name := Json.str "Unknown", score := sc
            page_count := Json.null
            chunk_index := (fields.lookup "chunk_index").getD Json.null
            total_chunks := (fields.lookup "total_chunks").getD Json.null } := by
    unfold process_hit
    rcases hmd with hnone | ⟨ms, hsome, hfn, hpc⟩
    · simp [pyDictGetD, pySubscript, htext, hnone]
    · simp [pyDictGetD, pySubscript, htext, hsome, hfn, hpc]
  refine ⟨hph, ?_⟩
  intro rest ds hrest
  simp only [collect_documents, hph, hrest]

def fieldsW10 : List (String × Json) := [("text", Json.str "hello")]

theorem missing_metadata_defaults_witness :
    process_hit { score := 1, payload := Json.obj fieldsW10 } =
      .ok { text := Json.str "hello", file_name := Json.str "Unknown", score := 1
            page_count := Json.null
            chunk_index := (fieldsW10.lookup "chunk_index").getD Json.null
            total_chunks := (fieldsW10.lookup "total_chunks").getD Json.null } ∧
    (∀ (rest : List ScoredPoint) (ds : List DocumentChunk),
      collect_documents rest = .ok ds →
      collect_documents ({ score := 1, payload := Json.obj fieldsW10 } :: rest) =
        .ok ({ text := Json.str "hello", file_name := Json.str "Unknown", score := 1
               page_count := Json.null
               chunk_index := (fieldsW10.lookup "chunk_index").getD Json.null
               total_chunks := (fieldsW10.lookup "total_chunks").getD Json.null } :: ds)) :=
  missing_metadata_defaults 1 fieldsW10 (Json.str "hello") rfl (Or.inl rfl)
